import Mathlib

/-!
Shallow embedding of the aggregation query layer of CLIProxyAPI-Monitor
(`src/lib/queries/overview.ts` and `src/lib/config.ts`) and proofs about it.

Modelling conventions:
* Timestamps are integer milliseconds since the Unix epoch (`Int`), matching
  `Date.getTime()`.
* JavaScript numbers coming back from SQL aggregates are modelled as `ℚ`
  (the database columns are integers and prices are decimals; `toNumber` in
  the source is the identity on finite values and is therefore dropped).
* The database is a list of `UsageRecord` rows; each drizzle query of
  `getOverview` is embedded as a pure function over that list with SQL
  `WHERE` as `List.filter`, `GROUP BY` as aggregation over the de-duplicated
  key list, `ORDER BY` as `List.insertionSort`, and `LIMIT`/`OFFSET` as
  `List.take`/`List.drop`.
* The host machine's local timezone (used by `Date.setHours`) is modelled as
  a fixed UTC offset `hostOff` in milliseconds; the absence of DST is a
  simplification, faithful for fixed-offset hosts.
* `Number.prototype.toFixed(k)` (re-parsed through `Number(...)`) is modelled
  as rounding to `k` decimal places, half away from zero.
* `null`/`undefined`/`NaN` inputs are modelled with `Option`.
* The `filters` dropdown lists of `getOverview` are an independent
  sub-aggregation not needed by any statement below and are omitted from
  the result record.
-/

namespace CPM

/-- `const DAY_MS = 24 * 60 * 60 * 1000` (overview.ts line 54). -/
def DAY_MS : Int := 24 * 60 * 60 * 1000

/-- One row of the `usage_records` fact table (`src/lib/db/schema` as used by
overview.ts). -/
structure UsageRecord where
  occurredAt : Int
  route : String
  model : String
  totalRequests : ℚ
  totalTokens : ℚ
  inputTokens : ℚ
  outputTokens : ℚ
  reasoningTokens : ℚ
  cachedTokens : ℚ
  successCount : ℚ
  failureCount : ℚ
  deriving DecidableEq

/-- One row of the `model_prices` table, after the `Number(...)` conversions
performed in overview.ts lines 258-263. -/
structure ModelPrice where
  model : String
  inputPricePer1M : ℚ
  cachedInputPricePer1M : ℚ
  outputPricePer1M : ℚ
  deriving DecidableEq

/-- JavaScript `Math.round` (floor of x + 1/2, ties toward +infinity). -/
def jsRound (x : ℚ) : Int := ⌊x + 1/2⌋

/-- JavaScript `Number(v.toFixed(k))`: rounding to `k` decimal places, half
away from zero. -/
def roundTo (k : ℕ) (x : ℚ) : ℚ :=
  (if 0 ≤ x then ((⌊x * 10 ^ k + 1/2⌋ : Int) : ℚ) else -((⌊-x * 10 ^ k + 1/2⌋ : Int) : ℚ)) / 10 ^ k

/-- `normalizeDays` (overview.ts lines 56-60): `null`/`NaN` (here `none`)
fall back to 14, otherwise floor and clamp to [1, 90]. -/
def normalizeDays (days : Option ℚ) : Int :=
  match days with
  | none => 14
  | some d => min (max ⌊d⌋ 1) 90

/-- `normalizePage` (overview.ts lines 80-84). -/
def normalizePage (value : Option ℚ) : Int :=
  match value with
  | none => 1
  | some v => max 1 ⌊v⌋

/-- `normalizePageSize` (overview.ts lines 86-90). -/
def normalizePageSize (value : Option ℚ) : Int :=
  match value with
  | none => 10
  | some v => min (max ⌊v⌋ 5) 500

/-- `withDayStart` (overview.ts lines 68-72): `d.setHours(0,0,0,0)` — start of
the calendar day containing `t` in the HOST machine's local timezone, whose
UTC offset in milliseconds is `hostOff`. -/
def withDayStart (hostOff t : Int) : Int :=
  (t + hostOff).fdiv DAY_MS * DAY_MS - hostOff

/-- `withDayEnd` (overview.ts lines 74-78): `d.setHours(23,59,59,999)`. -/
def withDayEnd (hostOff t : Int) : Int :=
  withDayStart hostOff t + DAY_MS - 1

/-- The fixed offset of the timezone literal `'Asia/Shanghai'` that is
interpolated into `dayExpr`/`hourExpr` (overview.ts lines 119-120): UTC+8,
with no daylight saving. -/
def shanghaiOffsetMs : Int := 8 * 60 * 60 * 1000

/-- The embedding of `dayExpr` + `to_char(..., 'YYYY-MM-DD')` (overview.ts
lines 119 and 161): the calendar-day bucket of an instant, computed with the
hardcoded `'Asia/Shanghai'` offset.  Day labels are represented by their day
index (days since the epoch in that zone); the `YYYY-MM-DD` string of the
source is in order-preserving bijection with this index. -/
def dayIdx (t : Int) : Int :=
  (t + shanghaiOffsetMs).fdiv DAY_MS

/-- One hour in milliseconds. -/
def HOUR_MS : Int := 60 * 60 * 1000

/-- The embedding of `hourExpr` + `to_char(..., 'MM-DD HH24')` (overview.ts
lines 120 and 186): the hour bucket of an instant, computed with the
hardcoded `'Asia/Shanghai'` offset.  Hour labels are represented by their
hour index (hours since the epoch in that zone), in order-preserving
bijection with the `MM-DD HH24` strings of the source within any window the
clamped `days` allows. -/
def hourIdx (t : Int) : Int :=
  (t + shanghaiOffsetMs).fdiv HOUR_MS

/-! ### Configuration (`src/lib/config.ts`) -/

/-- `DEFAULT_TIMEZONE` (config.ts line 14). -/
def DEFAULT_TIMEZONE : String := "Asia/Shanghai"

/-- A character admitted by `VALID_TZ_REGEX = /^[A-Za-z_/]+$/` (config.ts
line 18). -/
def tzChar (c : Char) : Bool :=
  (('A' ≤ c && c ≤ 'Z') || ('a' ≤ c && c ≤ 'z') || c == '_' || c == '/')

/-- `VALID_TZ_REGEX.test tz`: the JavaScript regex anchors at the true string
ends (no `m` flag) and `+` demands at least one character. -/
def validTz (tz : String) : Bool :=
  !tz.data.isEmpty && tz.data.all tzChar

/-- `validateTimezone` (config.ts lines 19-21). -/
def validateTimezone (tz : String) : String :=
  if validTz tz then tz else DEFAULT_TIMEZONE

/-- `config.timezone` as a function of the `TIMEZONE` environment variable
(config.ts line 25): `validateTimezone(process.env.TIMEZONE || DEFAULT_TIMEZONE)`;
`none` models an unset variable and `""` is falsy in JavaScript. -/
def configTimezone (envTz : Option String) : String :=
  validateTimezone (match envTz with
    | none => DEFAULT_TIMEZONE
    | some s => if s = "" then DEFAULT_TIMEZONE else s)

/-! ### Window resolution and filtering (`getOverview`, overview.ts 96-117) -/

/-- The caller-supplied arguments of `getOverview` (overview.ts lines 92-94).
`startI`/`endI` carry the result of `parseDateInput` (overview.ts 62-66):
`none` for absent or unparseable dates, otherwise the parsed timestamp. -/
structure OverviewQuery where
  daysInput : Option ℚ
  model : Option String
  route : Option String
  page : Option ℚ
  pageSize : Option ℚ
  startI : Option Int
  endI : Option Int
  deriving DecidableEq

/-- The resolved time window (overview.ts lines 98-105). -/
structure WindowSpec where
  days : Int
  since : Int
  untilI : Option Int
  deriving DecidableEq

/-- Lines 98-105 of overview.ts: `hasCustomRange`, `days`, `since`, `untilI`.
`now` is `Date.now()` and `hostOff` the host-local UTC offset. -/
def resolveWindow (now hostOff : Int) (q : OverviewQuery) : WindowSpec :=
  match q.startI, q.endI with
  | some s, some e =>
    if s ≤ e then
      { days := max 1 (jsRound (((withDayEnd hostOff e - withDayStart hostOff s : Int) : ℚ)
                  / ((DAY_MS : Int) : ℚ)) + 1)
        since := withDayStart hostOff s
        untilI := some (withDayEnd hostOff e) }
    else
      { days := normalizeDays q.daysInput
        since := now - normalizeDays q.daysInput * DAY_MS
        untilI := none }
  | _, _ =>
    { days := normalizeDays q.daysInput
      since := now - normalizeDays q.daysInput * DAY_MS
      untilI := none }

/-- Lines 113-114 of overview.ts: empty strings are falsy and dropped, other
strings are truncated to 500 characters. -/
def sanitizeFilter (x : Option String) : Option String :=
  match x with
  | none => none
  | some s => if s = "" then none else some (String.mk (s.data.take 500))

/-- The row predicate of `filterWhere` (overview.ts lines 107-117):
`occurredAt >= since`, optionally `occurredAt <= untilI`, and the optional
exact-match model/route filters. -/
def matchesFilters (w : WindowSpec) (m r : Option String) (rec : UsageRecord) : Bool :=
  decide (w.since ≤ rec.occurredAt) &&
  (match w.untilI with
    | none => true
    | some u => decide (rec.occurredAt ≤ u)) &&
  (match m with
    | none => true
    | some s => rec.model == s) &&
  (match r with
    | none => true
    | some s => rec.route == s)

/-- The rows selected by `filterWhere` for a query. -/
def filteredRecords (db : List UsageRecord) (now hostOff : Int) (q : OverviewQuery) :
    List UsageRecord :=
  db.filter (matchesFilters (resolveWindow now hostOff q)
    (sanitizeFilter q.model) (sanitizeFilter q.route))

/-! ### Cost estimation

Modelled from the spec: `src/lib/usage.ts` (`estimateCost` and `priceMap`,
imported in overview.ts line 6) is not under `src/`.  The spec (§4.2) says:
patterns with a trailing `*` are matched against literal model names by
prefix; among several matching patterns the most specific (longest) wins,
first-registered on ties, deterministically; when nothing matches, a
documented default rate applies instead of an error or zero (the default
rates documented in overview.ts lines 344-352 for the same purpose are
3 / 0.3 / 15 dollars per million tokens); the formula is
`(inputTokens - cachedTokens)/1e6 * inputRate + cachedTokens/1e6 * cachedRate
+ outputTokens/1e6 * outputRate`.  `priceMap` is the identity on this
representation of the price table. -/

/-- Token counts handed to `estimateCost` (overview.ts line 268). -/
structure TokenCounts where
  inputTokens : ℚ
  cachedTokens : ℚ
  outputTokens : ℚ
  deriving DecidableEq

/-- Modelled from the spec: a stored price pattern matches a literal model
name, a trailing `*` meaning prefix match. -/
def patternMatches (pat model : String) : Bool :=
  if pat.data.getLast? == some ('*' : Char) then model.data.take (pat.data.length - 1) == pat.data.dropLast
  else model == pat

/-- Modelled from the spec: deterministic price lookup — the longest matching
pattern wins, first-registered on ties. -/
def lookupPrice (prices : List ModelPrice) (model : String) : Option ModelPrice :=
  (prices.filter (fun p => patternMatches p.model model)).foldl
    (fun best p =>
      match best with
      | none => some p
      | some b => if b.model.data.length < p.model.data.length then some p else some b)
    none

/-- Modelled from the spec: default rates when no price row matches. -/
def defaultPrice (model : String) : ModelPrice :=
  { model := model, inputPricePer1M := 3, cachedInputPricePer1M := 3/10, outputPricePer1M := 15 }

/-- Modelled from the spec: `estimateCost(tokens, model, prices)`. -/
def estimateCost (tc : TokenCounts) (model : String) (prices : List ModelPrice) : ℚ :=
  let p := (lookupPrice prices model).getD (defaultPrice model)
  (tc.inputTokens - tc.cachedTokens) / 1000000 * p.inputPricePer1M
    + tc.cachedTokens / 1000000 * p.cachedInputPricePer1M
    + tc.outputTokens / 1000000 * p.outputPricePer1M

/-! ### The sub-aggregations (overview.ts lines 122-251)

Each drizzle query runs over the same filtered row set `l`.  `GROUP BY k`
is embedded as a map over the list of distinct key values and `ORDER BY` as
an insertion sort of that key list. -/

/-- `sum(column)` over a row group. -/
def sumOf (l : List UsageRecord) (f : UsageRecord → ℚ) : ℚ :=
  (l.map f).sum

/-- Code-point lexicographic comparison, the model of the text collation
used by the SQL `ORDER BY` on model/route name columns. -/
def charsLt : List Char → List Char → Bool
  | _, [] => false
  | [], _ :: _ => true
  | a :: as, b :: bs => decide (a < b) || (a == b && charsLt as bs)

/-- Text ordering for `ORDER BY` over string keys. -/
def strLe (a b : String) : Prop :=
  (a == b || charsLt a.data b.data) = true

instance : DecidableRel strLe := fun a b => by
  unfold strLe; infer_instance

/-- `totalsPromise` (overview.ts lines 122-134): one row of window totals;
`coalesce(sum(...), 0)` makes the empty-window sums 0, matching `List.sum []`. -/
structure TotalsRow where
  totalRequests : ℚ
  totalTokens : ℚ
  inputTokens : ℚ
  outputTokens : ℚ
  reasoningTokens : ℚ
  cachedTokens : ℚ
  successCount : ℚ
  failureCount : ℚ
  deriving DecidableEq

def totalsOf (l : List UsageRecord) : TotalsRow :=
  { totalRequests := sumOf l (·.totalRequests)
    totalTokens := sumOf l (·.totalTokens)
    inputTokens := sumOf l (·.inputTokens)
    outputTokens := sumOf l (·.outputTokens)
    reasoningTokens := sumOf l (·.reasoningTokens)
    cachedTokens := sumOf l (·.cachedTokens)
    successCount := sumOf l (·.successCount)
    failureCount := sumOf l (·.failureCount) }

/-- The distinct models of the filtered window in `ORDER BY model` order
(overview.ts lines 143-157, before `LIMIT`/`OFFSET`). -/
def sortedModels (l : List UsageRecord) : List String :=
  ((l.map (·.model)).dedup).insertionSort strLe

/-- One row of `byModelPromise` for a given model key. -/
structure ModelAggRow where
  model : String
  requests : ℚ
  tokens : ℚ
  inputTokens : ℚ
  outputTokens : ℚ
  cachedTokens : ℚ
  deriving DecidableEq

def modelAggRow (l : List UsageRecord) (m : String) : ModelAggRow :=
  let g := l.filter (fun r => r.model == m)
  { model := m
    requests := sumOf g (·.totalRequests)
    tokens := sumOf g (·.totalTokens)
    inputTokens := sumOf g (·.inputTokens)
    outputTokens := sumOf g (·.outputTokens)
    cachedTokens := sumOf g (·.cachedTokens) }

/-- `byModelPromise` without its `LIMIT`/`OFFSET` clause. -/
def byModelAll (l : List UsageRecord) : List ModelAggRow :=
  (sortedModels l).map (modelAggRow l)

/-- `byModelPromise` (overview.ts lines 143-157): `LIMIT pageSize OFFSET offset`. -/
def byModelRows (l : List UsageRecord) (offset pageSize : Int) : List ModelAggRow :=
  ((byModelAll l).drop offset.toNat).take pageSize.toNat

/-- `totalModelsPromise` (overview.ts lines 138-141): `count(distinct model)`. -/
def totalModelsOf (l : List UsageRecord) : Int :=
  ((l.map (·.model)).dedup).length

/-- The distinct `'Asia/Shanghai'` day buckets of the filtered window in
ascending order (the `GROUP BY dayExpr ORDER BY dayExpr` of overview.ts
lines 159-169). -/
def sortedDays (l : List UsageRecord) : List Int :=
  ((l.map (fun r => dayIdx r.occurredAt)).dedup).insertionSort (· ≤ ·)

/-- One row of `byDayPromise` for a given day bucket. -/
structure DayAggRow where
  label : Int
  requests : ℚ
  tokens : ℚ
  deriving DecidableEq

def dayAggRow (l : List UsageRecord) (d : Int) : DayAggRow :=
  let g := l.filter (fun r => dayIdx r.occurredAt == d)
  { label := d
    requests := sumOf g (·.totalRequests)
    tokens := sumOf g (·.totalTokens) }

/-- `byDayPromise` (overview.ts lines 159-169), including its `LIMIT days`. -/
def byDayRows (l : List UsageRecord) (days : Int) : List DayAggRow :=
  (((sortedDays l).map (dayAggRow l)).take days.toNat)

/-- The ordering of `GROUP BY dayExpr, model ORDER BY dayExpr, model`. -/
def dayModelLe (a b : Int × String) : Prop :=
  a.1 < b.1 ∨ (a.1 = b.1 ∧ strLe a.2 b.2)

instance : DecidableRel dayModelLe := fun a b => by
  unfold dayModelLe; infer_instance

/-- The distinct (day, model) keys of the filtered window, sorted. -/
def sortedDayModels (l : List UsageRecord) : List (Int × String) :=
  ((l.map (fun r => (dayIdx r.occurredAt, r.model))).dedup).insertionSort dayModelLe

/-- One row of `byDayModelPromise` for a given (day, model) key. -/
structure DayModelAggRow where
  label : Int
  model : String
  inputTokens : ℚ
  outputTokens : ℚ
  cachedTokens : ℚ
  deriving DecidableEq

def dayModelAggRow (l : List UsageRecord) (k : Int × String) : DayModelAggRow :=
  let g := l.filter (fun r => dayIdx r.occurredAt == k.1 && r.model == k.2)
  { label := k.1
    model := k.2
    inputTokens := sumOf g (·.inputTokens)
    outputTokens := sumOf g (·.outputTokens)
    cachedTokens := sumOf g (·.cachedTokens) }

/-- `byDayModelPromise` (overview.ts lines 171-182). -/
def byDayModelRows (l : List UsageRecord) : List DayModelAggRow :=
  (sortedDayModels l).map (dayModelAggRow l)

/-- The distinct `'Asia/Shanghai'` hour buckets of the filtered window in
ascending order (the `GROUP BY hourExpr ORDER BY hourExpr` of overview.ts
lines 184-198). -/
def sortedHours (l : List UsageRecord) : List Int :=
  ((l.map (fun r => hourIdx r.occurredAt)).dedup).insertionSort (· ≤ ·)

/-- One row of `byHourPromise` (overview.ts lines 184-198) for a given hour
bucket; `hourStart` is `(hourExpr) at time zone 'Asia/Shanghai'` — the UTC
instant at which the local hour begins (the source serializes it to an ISO
string, an order-preserving rendering of this integer). -/
structure HourAggRow where
  label : Int
  hourStart : Int
  requests : ℚ
  tokens : ℚ
  inputTokens : ℚ
  outputTokens : ℚ
  reasoningTokens : ℚ
  cachedTokens : ℚ
  deriving DecidableEq

def hourAggRow (l : List UsageRecord) (hr : Int) : HourAggRow :=
  let g := l.filter (fun r => hourIdx r.occurredAt == hr)
  { label := hr
    hourStart := hr * HOUR_MS - shanghaiOffsetMs
    requests := sumOf g (·.totalRequests)
    tokens := sumOf g (·.totalTokens)
    inputTokens := sumOf g (·.inputTokens)
    outputTokens := sumOf g (·.outputTokens)
    reasoningTokens := sumOf g (·.reasoningTokens)
    cachedTokens := sumOf g (·.cachedTokens) }

/-- `byHourPromise`: one row per hour bucket, ascending, no limit; the
response `byHour` (overview.ts 299-311) carries these rows field for field. -/
def byHourRows (l : List UsageRecord) : List HourAggRow :=
  (sortedHours l).map (hourAggRow l)

/-- One row of `byRoutePromise` for a given route key. -/
structure RouteAggRow where
  route : String
  requests : ℚ
  tokens : ℚ
  inputTokens : ℚ
  outputTokens : ℚ
  cachedTokens : ℚ
  deriving DecidableEq

def routeAggRow (l : List UsageRecord) (rt : String) : RouteAggRow :=
  let g := l.filter (fun r => r.route == rt)
  { route := rt
    requests := sumOf g (·.totalRequests)
    tokens := sumOf g (·.totalTokens)
    inputTokens := sumOf g (·.inputTokens)
    outputTokens := sumOf g (·.outputTokens)
    cachedTokens := sumOf g (·.cachedTokens) }

/-- The `ORDER BY sum(totalRequests) desc` relation of `byRoutePromise`. -/
def routeGe (a b : RouteAggRow) : Prop :=
  b.requests ≤ a.requests

instance : DecidableRel routeGe := fun a b => by
  unfold routeGe; infer_instance

/-- `byRoutePromise` (overview.ts lines 214-227): group by route, order by
summed requests descending, `LIMIT 10`. -/
def byRouteRows (l : List UsageRecord) : List RouteAggRow :=
  ((((l.map (·.route)).dedup).map (routeAggRow l)).insertionSort routeGe).take 10

/-! ### Assembling the response (overview.ts lines 253-379) -/

/-- `Map<string, number>` keyed by day label, as an association list. -/
def mapGet (m : List (Int × ℚ)) (k : Int) : Option ℚ :=
  (m.find? (fun p => p.1 == k)).map (·.2)

def mapSet : List (Int × ℚ) → Int → ℚ → List (Int × ℚ)
  | [], k, v => [(k, v)]
  | p :: rest, k, v => if p.1 == k then (k, v) :: rest else p :: mapSet rest k v

/-- The cost of one `byDayModelRows` row (overview.ts lines 284-288). -/
def dayModelCost (prices : List ModelPrice) (row : DayModelAggRow) : ℚ :=
  estimateCost
    { inputTokens := row.inputTokens, cachedTokens := row.cachedTokens,
      outputTokens := row.outputTokens }
    row.model prices

/-- `dailyCostMap` (overview.ts lines 282-290):
`map.set(label, (map.get(label) ?? 0) + cost)` over the day/model rows. -/
def dailyCostMap (prices : List ModelPrice) (rows : List DayModelAggRow) : List (Int × ℚ) :=
  rows.foldl
    (fun m row => mapSet m row.label ((mapGet m row.label).getD 0 + dayModelCost prices row))
    []

/-- `ModelUsage` (response rows of `overview.models`, overview.ts 266-280). -/
structure ModelUsage where
  model : String
  requests : ℚ
  tokens : ℚ
  inputTokens : ℚ
  outputTokens : ℚ
  cost : ℚ
  deriving DecidableEq

def toModelUsage (prices : List ModelPrice) (row : ModelAggRow) : ModelUsage :=
  { model := row.model
    requests := row.requests
    tokens := row.tokens
    inputTokens := row.inputTokens
    outputTokens := row.outputTokens
    cost := estimateCost
      { inputTokens := row.inputTokens, cachedTokens := row.cachedTokens,
        outputTokens := row.outputTokens }
      row.model prices }

/-- `UsageSeriesPoint` as produced for `byDay` (overview.ts 292-297). -/
structure SeriesPoint where
  label : Int
  requests : ℚ
  tokens : ℚ
  cost : ℚ
  deriving DecidableEq

/-- `RouteUsage` (response rows of `topRoutes`, overview.ts 355-369). -/
structure RouteUsage where
  route : String
  requests : ℚ
  tokens : ℚ
  inputTokens : ℚ
  outputTokens : ℚ
  cachedTokens : ℚ
  cost : ℚ
  deriving DecidableEq

/-- `UsageOverview` (overview.ts 319-333). -/
structure UsageOverview where
  totalRequests : ℚ
  totalTokens : ℚ
  totalInputTokens : ℚ
  totalOutputTokens : ℚ
  totalReasoningTokens : ℚ
  totalCachedTokens : ℚ
  successCount : ℚ
  failureCount : ℚ
  successRate : ℚ
  totalCost : ℚ
  models : List ModelUsage
  byDay : List SeriesPoint
  byHour : List HourAggRow
  deriving DecidableEq

/-- `OverviewMeta` (overview.ts line 47). -/
structure OverviewMeta where
  page : Int
  pageSize : Int
  totalModels : Int
  totalPages : Int
  deriving DecidableEq

/-- The return value of `getOverview` (overview.ts 371-378; `filters`
omitted, see header). -/
structure OverviewResult where
  overview : UsageOverview
  empty : Bool
  days : Int
  meta : OverviewMeta
  topRoutes : List RouteUsage
  deriving DecidableEq

/-- Average input price over the configured price rows, fallback 3
(overview.ts lines 344-346). -/
def avgInputPrice (prices : List ModelPrice) : ℚ :=
  if prices = [] then 3 else ((prices.map (·.inputPricePer1M)).sum) / prices.length

/-- Average cached-input price, fallback 0.3 (overview.ts lines 347-349). -/
def avgCachedPrice (prices : List ModelPrice) : ℚ :=
  if prices = [] then 3/10 else ((prices.map (·.cachedInputPricePer1M)).sum) / prices.length

/-- Average output price, fallback 15 (overview.ts lines 350-352). -/
def avgOutputPrice (prices : List ModelPrice) : ℚ :=
  if prices = [] then 15 else ((prices.map (·.outputPricePer1M)).sum) / prices.length

/-- One `topRoutes` entry (overview.ts lines 355-369). -/
def toRouteUsage (prices : List ModelPrice) (row : RouteAggRow) : RouteUsage :=
  let inputCost := (row.inputTokens - row.cachedTokens) / 1000000 * avgInputPrice prices
  let cachedCost := row.cachedTokens / 1000000 * avgCachedPrice prices
  let outputCost := row.outputTokens / 1000000 * avgOutputPrice prices
  { route := row.route
    requests := row.requests
    tokens := row.tokens
    inputTokens := row.inputTokens
    outputTokens := row.outputTokens
    cachedTokens := row.cachedTokens
    cost := roundTo 4 (inputCost + cachedCost + outputCost) }

/-- One `byDay` response row (overview.ts lines 292-297): label, sums, and
the 2-decimal-rounded daily cost looked up in `dailyCostMap`. -/
def toSeriesPoint (dcm : List (Int × ℚ)) (row : DayAggRow) : SeriesPoint :=
  { label := row.label, requests := row.requests, tokens := row.tokens,
    cost := roundTo 2 ((mapGet dcm row.label).getD 0) }

/-- `getOverview` (overview.ts lines 92-379), as a pure function of the
event store `db`, the price table `prices`, the clock `now`, the host-local
UTC offset `hostOff` and the caller's query. -/
def getOverview (db : List UsageRecord) (prices : List ModelPrice)
    (now hostOff : Int) (q : OverviewQuery) : OverviewResult :=
  let w := resolveWindow now hostOff q
  let page := normalizePage q.page
  let pageSize := normalizePageSize q.pageSize
  let offset := (page - 1) * pageSize
  let l := filteredRecords db now hostOff q
  let totalsRow := totalsOf l
  let models := (byModelRows l offset pageSize).map (toModelUsage prices)
  let dcm := dailyCostMap prices (byDayModelRows l)
  let byDay := (byDayRows l w.days).map (toSeriesPoint dcm)
  let totalCost := (models.map (·.cost)).sum
  let totalRequests := totalsRow.totalRequests
  let successCount := totalsRow.successCount
  let successRate : ℚ := if totalRequests = 0 then 1 else successCount / totalRequests
  let totalModels := totalModelsOf l
  let totalPages := max 1 ⌈((totalModels : ℚ) / (pageSize : ℚ))⌉
  { overview :=
      { totalRequests := totalRequests
        totalTokens := totalsRow.totalTokens
        totalInputTokens := totalsRow.inputTokens
        totalOutputTokens := totalsRow.outputTokens
        totalReasoningTokens := totalsRow.reasoningTokens
        totalCachedTokens := totalsRow.cachedTokens
        successCount := successCount
        failureCount := totalsRow.failureCount
        successRate := successRate
        totalCost := roundTo 4 totalCost
        models := models
        byDay := byDay
        byHour := byHourRows l }
    empty := decide (totalRequests = 0)
    days := w.days
    meta :=
      { page := page, pageSize := pageSize, totalModels := totalModels,
        totalPages := totalPages }
    topRoutes := (byRouteRows l).map (toRouteUsage prices) }

/-! ### Projection lemmas for `getOverview` -/

theorem getOverview_days (db : List UsageRecord) (prices : List ModelPrice)
    (now hostOff : Int) (q : OverviewQuery) :
    (getOverview db prices now hostOff q).days = (resolveWindow now hostOff q).days := rfl

theorem getOverview_meta (db : List UsageRecord) (prices : List ModelPrice)
    (now hostOff : Int) (q : OverviewQuery) :
    (getOverview db prices now hostOff q).meta =
      { page := normalizePage q.page
        pageSize := normalizePageSize q.pageSize
        totalModels := totalModelsOf (filteredRecords db now hostOff q)
        totalPages := max 1 ⌈((totalModelsOf (filteredRecords db now hostOff q) : ℚ)
          / ((normalizePageSize q.pageSize : Int) : ℚ))⌉ } := rfl

theorem getOverview_models (db : List UsageRecord) (prices : List ModelPrice)
    (now hostOff : Int) (q : OverviewQuery) :
    (getOverview db prices now hostOff q).overview.models =
      (byModelRows (filteredRecords db now hostOff q)
        ((normalizePage q.page - 1) * normalizePageSize q.pageSize)
        (normalizePageSize q.pageSize)).map (toModelUsage prices) := rfl

theorem getOverview_totalCost (db : List UsageRecord) (prices : List ModelPrice)
    (now hostOff : Int) (q : OverviewQuery) :
    (getOverview db prices now hostOff q).overview.totalCost =
      roundTo 4 (((getOverview db prices now hostOff q).overview.models.map (·.cost)).sum) := rfl

theorem getOverview_byDay (db : List UsageRecord) (prices : List ModelPrice)
    (now hostOff : Int) (q : OverviewQuery) :
    (getOverview db prices now hostOff q).overview.byDay =
      (byDayRows (filteredRecords db now hostOff q) (resolveWindow now hostOff q).days).map
        (toSeriesPoint
          (dailyCostMap prices (byDayModelRows (filteredRecords db now hostOff q)))) := rfl

theorem getOverview_byHour (db : List UsageRecord) (prices : List ModelPrice)
    (now hostOff : Int) (q : OverviewQuery) :
    (getOverview db prices now hostOff q).overview.byHour =
      byHourRows (filteredRecords db now hostOff q) := rfl

theorem getOverview_topRoutes (db : List UsageRecord) (prices : List ModelPrice)
    (now hostOff : Int) (q : OverviewQuery) :
    (getOverview db prices now hostOff q).topRoutes =
      (byRouteRows (filteredRecords db now hostOff q)).map (toRouteUsage prices) := rfl

/-! ### C10 -/

/-- C10: for every value of the `TIMEZONE` environment variable, the
resulting `config.timezone` matches `^[A-Za-z_/]+$` — any value failing the
pattern is silently replaced by the default `"Asia/Shanghai"` — so the
timezone string interpolated into SQL always comes from this restricted
character set. -/
theorem c10_config_timezone_always_valid :
    (∀ envTz : Option String, validTz (configTimezone envTz) = true) ∧
    (∀ s : String, validTz s = false → configTimezone (some s) = "Asia/Shanghai") := by
  have hdef : validTz DEFAULT_TIMEZONE = true := by decide
  constructor
  · intro envTz
    match envTz with
    | none => decide
    | some s =>
      by_cases he : s = ""
      · subst he; decide
      · simp only [configTimezone, if_neg he, validateTimezone]
        by_cases hv : validTz s
        · simp [hv]
        · simpa [hv] using hdef
  · intro s hs
    by_cases he : s = ""
    · subst he; decide
    · simp [configTimezone, if_neg he, validateTimezone, hs, DEFAULT_TIMEZONE]

/-- Witness for C10 at the invalid timezone string `"Etc/GMT+8"` (the `+`
fails the pattern). -/
theorem c10_config_timezone_always_valid_witness :
    validTz (configTimezone (some "Etc/GMT+8")) = true ∧
    configTimezone (some "Etc/GMT+8") = "Asia/Shanghai" :=
  ⟨c10_config_timezone_always_valid.1 (some "Etc/GMT+8"),
   c10_config_timezone_always_valid.2 "Etc/GMT+8" (by decide)⟩

/-! ### C9 -/

/-- C9: when the resolved window and filters contain zero requests,
`getOverview` reports `successRate = 1` (not 0, and `NaN` cannot arise since
the zero-denominator division is never taken); otherwise `successRate` is
`successCount / totalRequests`. -/
theorem c9_successRate (db : List UsageRecord) (prices : List ModelPrice)
    (now hostOff : Int) (q : OverviewQuery) :
    (getOverview db prices now hostOff q).overview.successRate =
      if sumOf (filteredRecords db now hostOff q) (·.totalRequests) = 0 then 1
      else sumOf (filteredRecords db now hostOff q) (·.successCount)
        / sumOf (filteredRecords db now hostOff q) (·.totalRequests) := rfl

/-! ### C6 -/

/-- C6: `empty` is true iff the summed `totalRequests` over the resolved
window and filters is 0; it is decided by the totals sub-aggregation (a sum
over every filtered row), not by the paginated models list. -/
theorem c6_empty_iff (db : List UsageRecord) (prices : List ModelPrice)
    (now hostOff : Int) (q : OverviewQuery) :
    (getOverview db prices now hostOff q).empty = true ↔
      sumOf (filteredRecords db now hostOff q) (·.totalRequests) = 0 := by
  show decide (sumOf (filteredRecords db now hostOff q) (·.totalRequests) = 0) = true ↔ _
  exact decide_eq_true_iff

/-! ### C7 -/

/-- C7: `getOverview` never rejects window or pagination inputs: `days` is
clamped to [1, 90] with default 14, `page` to at least 1, `pageSize` to
[5, 500]; an explicit range with `end < start` is discarded and the
relative-days default used instead (the embedding is a total function, so
no input can raise). -/
theorem c7_input_clamping :
    (∀ d, 1 ≤ normalizeDays d ∧ normalizeDays d ≤ 90) ∧
    normalizeDays none = 14 ∧
    (∀ p, 1 ≤ normalizePage p) ∧
    (∀ s, 5 ≤ normalizePageSize s ∧ normalizePageSize s ≤ 500) ∧
    (∀ (db : List UsageRecord) (prices : List ModelPrice) (now hostOff s e : Int)
      (dIn : Option ℚ) (m r : Option String) (p ps : Option ℚ), e < s →
      getOverview db prices now hostOff
        { daysInput := dIn, model := m, route := r, page := p, pageSize := ps,
          startI := some s, endI := some e } =
      getOverview db prices now hostOff
        { daysInput := dIn, model := m, route := r, page := p, pageSize := ps,
          startI := none, endI := none }) := by
  refine ⟨?_, rfl, ?_, ?_, ?_⟩
  · intro d
    match d with
    | none => exact ⟨by norm_num [normalizeDays], by norm_num [normalizeDays]⟩
    | some x =>
      refine ⟨?_, ?_⟩
      · show (1:Int) ≤ min (max ⌊x⌋ 1) 90
        exact le_min (le_max_right _ _) (by norm_num)
      · show min (max ⌊x⌋ 1) 90 ≤ (90:Int)
        exact min_le_right _ _
  · intro p
    match p with
    | none => norm_num [normalizePage]
    | some x => exact le_max_left _ _
  · intro s
    match s with
    | none => exact ⟨by norm_num [normalizePageSize], by norm_num [normalizePageSize]⟩
    | some x =>
      refine ⟨?_, ?_⟩
      · show (5:Int) ≤ min (max ⌊x⌋ 5) 500
        exact le_min (le_max_right _ _) (by norm_num)
      · show min (max ⌊x⌋ 5) 500 ≤ (500:Int)
        exact min_le_right _ _
  · intro db prices now hostOff s e dIn m r p ps he
    have hw : resolveWindow now hostOff
        { daysInput := dIn, model := m, route := r, page := p, pageSize := ps,
          startI := some s, endI := some e } =
        resolveWindow now hostOff
        { daysInput := dIn, model := m, route := r, page := p, pageSize := ps,
          startI := none, endI := none } := by
      simp only [resolveWindow]
      rw [if_neg (not_le.mpr he)]
    simp only [getOverview, filteredRecords, hw]

/-- Witness for C7 at the reversed explicit range `start = 5, end = 3`. -/
theorem c7_input_clamping_witness :
    1 ≤ normalizePage (some (-7)) ∧
    getOverview [] [] 0 0
      { daysInput := none, model := none, route := none, page := none,
        pageSize := none, startI := some 5, endI := some 3 } =
    getOverview [] [] 0 0
      { daysInput := none, model := none, route := none, page := none,
        pageSize := none, startI := none, endI := none } :=
  ⟨c7_input_clamping.2.2.1 (some (-7)),
   c7_input_clamping.2.2.2.2 [] [] 0 0 5 3 none none none none none (by decide)⟩

/-! ### C4 (corrected) -/

/- The kernel cannot evaluate the `ℚ` field operations while they are marked
irreducible; re-enabling unfolding lets `decide` settle the concrete
computations below. -/
attribute [local semireducible] Rat.add Rat.mul Rat.inv Rat.sub

/-- C4 as stated is false: with `days = 1` and no explicit range, the
resolved window starts exactly 24 hours before `now` (here `now = 1000`,
host offset 0), which is not the host-local midnight `withDayStart 0 1000`. -/
theorem c4_counterexample :
    (resolveWindow 1000 0
      { daysInput := some 1, model := none, route := none, page := none,
        pageSize := none, startI := none, endI := none }).since = 1000 - DAY_MS ∧
    (resolveWindow 1000 0
      { daysInput := some 1, model := none, route := none, page := none,
        pageSize := none, startI := none, endI := none }).since ≠
      withDayStart 0 1000 := by
  exact ⟨by decide, by decide⟩

/-- C4 amended: with no explicit range the window is rolling — it starts
exactly `days · 24h` before `now` (for `days = 1`, exactly 24 hours before
`now`), has no upper bound, and there is no "today" special case. -/
theorem c4_rolling_window (now hostOff : Int) (dIn : Option ℚ) (m r : Option String)
    (p ps : Option ℚ) :
    resolveWindow now hostOff
      { daysInput := dIn, model := m, route := r, page := p, pageSize := ps,
        startI := none, endI := none } =
      { days := normalizeDays dIn, since := now - normalizeDays dIn * DAY_MS,
        untilI := none } ∧
    (resolveWindow now hostOff
      { daysInput := some 1, model := m, route := r, page := p, pageSize := ps,
        startI := none, endI := none }).since = now - DAY_MS := by
  refine ⟨rfl, ?_⟩
  show now - normalizeDays (some 1) * DAY_MS = now - DAY_MS
  have h1 : normalizeDays (some 1) = 1 := by decide
  rw [h1, one_mul]

/-! ### C3 (corrected) -/

/-- C3 as stated is false: the day-window bound `withDayStart` (used for
explicit ranges) depends on the host machine's UTC offset — at `t = 0` a UTC
host and a UTC+8 host resolve different `since` bounds for the same explicit
range — and the day-bucket expression is hardcoded to `'Asia/Shanghai'`
rather than `config.timezone`: with `TIMEZONE=UTC` (accepted by the
validator), the bucket of `t = -1 ms` is still the Shanghai day 0 and the
Shanghai hour 7, not the UTC day `(-1).fdiv DAY_MS = -1` and UTC hour
`(-1).fdiv HOUR_MS = -1`. -/
theorem c3_counterexample :
    (resolveWindow 0 0
      { daysInput := none, model := none, route := none, page := none,
        pageSize := none, startI := some 0, endI := some 0 }).since ≠
    (resolveWindow 0 shanghaiOffsetMs
      { daysInput := none, model := none, route := none, page := none,
        pageSize := none, startI := some 0, endI := some 0 }).since ∧
    configTimezone (some "UTC") = "UTC" ∧
    dayIdx (-1) ≠ Int.fdiv (-1) DAY_MS ∧
    hourIdx (-1) ≠ Int.fdiv (-1) HOUR_MS := by
  exact ⟨by decide, by decide, by decide, by decide⟩

theorem hourAggRow_label_map (l : List UsageRecord) (hs : List Int) :
    hs.map (fun hr => (hourAggRow l hr).label) = hs := by
  induction hs with
  | nil => rfl
  | cons hr hs ih => simp only [List.map_cons, ih]; rfl

/-- The labels of the hourly series are exactly the distinct hour buckets of
the filtered window, ascending. -/
theorem byHourRows_labels (l : List UsageRecord) :
    (byHourRows l).map (·.label) = sortedHours l := by
  unfold byHourRows
  rw [List.map_map]
  rw [show ((fun r => HourAggRow.label r) ∘ hourAggRow l : Int → Int) =
    (fun hr => (hourAggRow l hr).label) from rfl]
  exact hourAggRow_label_map l (sortedHours l)

/-- C3 amended: `withDayStart`/`withDayEnd` compute the start and end of the
calendar day in the HOST machine's local timezone (the greatest host-local
midnight not after `t`, and its day end), and the daily and hourly bucket
boundaries are those of the fixed literal `'Asia/Shanghai'` offset (UTC+8),
independent of `config.timezone`: every returned `byHour` row is a bucket of
`hourIdx` and every minute of such a bucket shares its Shanghai hour. -/
theorem c3_host_local_bounds_shanghai_buckets (hostOff t : Int) :
    (withDayStart hostOff t + hostOff) % DAY_MS = 0 ∧
    withDayStart hostOff t ≤ t ∧
    t < withDayStart hostOff t + DAY_MS ∧
    withDayEnd hostOff t = withDayStart hostOff t + DAY_MS - 1 ∧
    dayIdx t * DAY_MS ≤ t + shanghaiOffsetMs ∧
    t + shanghaiOffsetMs < (dayIdx t + 1) * DAY_MS ∧
    hourIdx t * HOUR_MS ≤ t + shanghaiOffsetMs ∧
    t + shanghaiOffsetMs < (hourIdx t + 1) * HOUR_MS ∧
    (∀ (db : List UsageRecord) (prices : List ModelPrice) (now : Int)
      (q : OverviewQuery),
      ((getOverview db prices now hostOff q).overview.byHour).map (·.label) =
        sortedHours (filteredRecords db now hostOff q)) := by
  have harith : (withDayStart hostOff t + hostOff) % DAY_MS = 0 ∧
      withDayStart hostOff t ≤ t ∧ t < withDayStart hostOff t + DAY_MS ∧
      withDayEnd hostOff t = withDayStart hostOff t + DAY_MS - 1 ∧
      dayIdx t * DAY_MS ≤ t + shanghaiOffsetMs ∧
      t + shanghaiOffsetMs < (dayIdx t + 1) * DAY_MS ∧
      hourIdx t * HOUR_MS ≤ t + shanghaiOffsetMs ∧
      t + shanghaiOffsetMs < (hourIdx t + 1) * HOUR_MS := by
    have hD : (0:Int) ≤ DAY_MS := by decide
    have hH : (0:Int) ≤ HOUR_MS := by decide
    unfold withDayEnd withDayStart dayIdx hourIdx
    rw [Int.fdiv_eq_ediv _ hD, Int.fdiv_eq_ediv _ hD, Int.fdiv_eq_ediv _ hH]
    unfold DAY_MS shanghaiOffsetMs HOUR_MS
    omega
  refine ⟨harith.1, harith.2.1, harith.2.2.1, harith.2.2.2.1, harith.2.2.2.2.1,
    harith.2.2.2.2.2.1, harith.2.2.2.2.2.2.1, harith.2.2.2.2.2.2.2, ?_⟩
  intro db prices now q
  rw [getOverview_byHour]
  exact byHourRows_labels _

/-! ### C1 (corrected) -/

theorem normalizePage_ge_one (p : Option ℚ) : 1 ≤ normalizePage p := by
  match p with
  | none => norm_num [normalizePage]
  | some x => exact le_max_left _ _

theorem normalizePageSize_ge_five (s : Option ℚ) : 5 ≤ normalizePageSize s := by
  match s with
  | none => norm_num [normalizePageSize]
  | some x =>
    show (5:Int) ≤ min (max ⌊x⌋ 5) 500
    exact le_min (le_max_right _ _) (by norm_num)

/-- The full (pre-pagination) per-model list has exactly one row per
distinct model, so its length is the `count(distinct model)` reported as
`totalModels`. -/
theorem byModelAll_length (l : List UsageRecord) :
    ((byModelAll l).length : Int) = totalModelsOf l := by
  simp only [byModelAll, sortedModels, totalModelsOf, List.length_map,
    (List.perm_insertionSort strLe ((l.map (·.model)).dedup)).length_eq]

/-- The shared one-event stores and queries used by the concrete witness
theorems below. -/
def wRec : UsageRecord :=
  { occurredAt := 1000, route := "r", model := "m", totalRequests := 1,
    totalTokens := 0, inputTokens := 0, outputTokens := 0, reasoningTokens := 0,
    cachedTokens := 0, successCount := 1, failureCount := 0 }

def wRecTok : UsageRecord :=
  { occurredAt := 1000, route := "r", model := "m", totalRequests := 1,
    totalTokens := 100, inputTokens := 1000000, outputTokens := 0,
    reasoningTokens := 0, cachedTokens := 0, successCount := 1, failureCount := 0 }

def wQuery : OverviewQuery :=
  { daysInput := none, model := none, route := none, page := none,
    pageSize := none, startI := none, endI := none }

def wQueryP2 : OverviewQuery :=
  { daysInput := none, model := none, route := none, page := some 2,
    pageSize := none, startI := none, endI := none }

def wPrice : ModelPrice :=
  { model := "m", inputPricePer1M := 2, cachedInputPricePer1M := 0,
    outputPricePer1M := 0 }

/-- C1 as stated is false for `totalCost`: with one event of cost 2 and one
model, page 2 is beyond the reported `totalPages = 1` and returns no model
rows, but its `totalCost` is 0 while page 1 of the same query reports 2 —
`totalCost` is computed from the paginated models list, not from a
page-independent totals aggregation. -/
theorem c1_counterexample :
    ((getOverview [wRecTok] [wPrice] 1000000 0 wQueryP2).meta.totalPages <
     (getOverview [wRecTok] [wPrice] 1000000 0 wQueryP2).meta.page) ∧
    (getOverview [wRecTok] [wPrice] 1000000 0 wQueryP2).overview.models = [] ∧
    (getOverview [wRecTok] [wPrice] 1000000 0 wQueryP2).overview.totalCost ≠
    (getOverview [wRecTok] [wPrice] 1000000 0
      { wQueryP2 with page := some 1 }).overview.totalCost := by
  exact ⟨by decide, by decide, by decide⟩

/-- C1 amended: on any page beyond the reported `totalPages`, the models
list is empty and every totals field of the overview EXCEPT `totalCost`
(`totalRequests`, `totalTokens`, the token breakdowns, `successCount`,
`failureCount`, `successRate`) is identical to page 1 of the same query;
`totalCost`, being the sum of the costs of the paginated model rows, is 0
on such a page. -/
theorem c1_out_of_range_page (db : List UsageRecord) (prices : List ModelPrice)
    (now hostOff : Int) (q : OverviewQuery)
    (h : (getOverview db prices now hostOff q).meta.totalPages <
         (getOverview db prices now hostOff q).meta.page) :
    (getOverview db prices now hostOff q).overview.models = [] ∧
    (getOverview db prices now hostOff q).overview.totalCost = 0 ∧
    (getOverview db prices now hostOff q).overview.totalRequests =
      (getOverview db prices now hostOff { q with page := some 1 }).overview.totalRequests ∧
    (getOverview db prices now hostOff q).overview.totalTokens =
      (getOverview db prices now hostOff { q with page := some 1 }).overview.totalTokens ∧
    (getOverview db prices now hostOff q).overview.totalInputTokens =
      (getOverview db prices now hostOff { q with page := some 1 }).overview.totalInputTokens ∧
    (getOverview db prices now hostOff q).overview.totalOutputTokens =
      (getOverview db prices now hostOff { q with page := some 1 }).overview.totalOutputTokens ∧
    (getOverview db prices now hostOff q).overview.totalReasoningTokens =
      (getOverview db prices now hostOff { q with page := some 1 }).overview.totalReasoningTokens ∧
    (getOverview db prices now hostOff q).overview.totalCachedTokens =
      (getOverview db prices now hostOff { q with page := some 1 }).overview.totalCachedTokens ∧
    (getOverview db prices now hostOff q).overview.successCount =
      (getOverview db prices now hostOff { q with page := some 1 }).overview.successCount ∧
    (getOverview db prices now hostOff q).overview.failureCount =
      (getOverview db prices now hostOff { q with page := some 1 }).overview.failureCount ∧
    (getOverview db prices now hostOff q).overview.successRate =
      (getOverview db prices now hostOff { q with page := some 1 }).overview.successRate := by
  rw [getOverview_meta] at h
  simp only at h
  set l := filteredRecords db now hostOff q with hl
  set ps := normalizePageSize q.pageSize with hps0
  set pg := normalizePage q.page with hpg0
  have hps : (5:Int) ≤ ps := normalizePageSize_ge_five _
  have hpg : (1:Int) ≤ pg := normalizePage_ge_one _
  have hceil : ⌈((totalModelsOf l : Int) : ℚ) / ((ps : Int) : ℚ)⌉ ≤ pg - 1 := by
    have h2 : ⌈((totalModelsOf l : Int) : ℚ) / ((ps : Int) : ℚ)⌉ ≤
        max 1 ⌈((totalModelsOf l : Int) : ℚ) / ((ps : Int) : ℚ)⌉ := le_max_right _ _
    omega
  have hpsQ : (0:ℚ) < ((ps : Int) : ℚ) := by
    have : (0:Int) < ps := by omega
    exact_mod_cast this
  have hdiv : ((totalModelsOf l : Int) : ℚ) / ((ps : Int) : ℚ) ≤ (((pg - 1) : Int) : ℚ) := by
    calc ((totalModelsOf l : Int) : ℚ) / ((ps : Int) : ℚ)
        ≤ (⌈((totalModelsOf l : Int) : ℚ) / ((ps : Int) : ℚ)⌉ : ℚ) := Int.le_ceil _
      _ ≤ (((pg - 1) : Int) : ℚ) := by exact_mod_cast hceil
  have htm_le : totalModelsOf l ≤ (pg - 1) * ps := by
    rw [div_le_iff₀ hpsQ] at hdiv
    exact_mod_cast hdiv
  have hlen : (byModelAll l).length ≤ ((pg - 1) * ps).toNat := by
    have hbm := byModelAll_length l
    omega
  have hmodels : byModelRows l ((pg - 1) * ps) ps = [] := by
    unfold byModelRows
    rw [List.drop_eq_nil_of_le hlen, List.take_nil]
  have hmodels2 : (getOverview db prices now hostOff q).overview.models = [] := by
    rw [getOverview_models, ← hl, ← hps0, ← hpg0, hmodels]
    rfl
  refine ⟨hmodels2, ?_, rfl, rfl, rfl, rfl, rfl, rfl, rfl, rfl, rfl⟩
  rw [getOverview_totalCost, hmodels2]
  show roundTo 4 ([] : List ℚ).sum = 0
  decide

/-- Witness for C1 at the one-event store: page 2 is beyond `totalPages = 1`. -/
theorem c1_out_of_range_page_witness :
    (getOverview [wRecTok] [wPrice] 1000000 0 wQueryP2).overview.models = [] ∧
    (getOverview [wRecTok] [wPrice] 1000000 0 wQueryP2).overview.totalRequests =
      (getOverview [wRecTok] [wPrice] 1000000 0
        { wQueryP2 with page := some 1 }).overview.totalRequests := by
  have h := c1_out_of_range_page [wRecTok] [wPrice] 1000000 0 wQueryP2 (by decide)
  exact ⟨h.1, h.2.2.1⟩

/-! ### C2 (corrected) -/

theorem toSeriesPoint_label (dcm : List (Int × ℚ)) (row : DayAggRow) :
    (toSeriesPoint dcm row).label = row.label := rfl

theorem dayAggRow_label_map (l : List UsageRecord) (ds : List Int) :
    ds.map (fun d => (dayAggRow l d).label) = ds := by
  induction ds with
  | nil => rfl
  | cons d ds ih => simp only [List.map_cons, ih]; rfl

/-- The labels of the day series are the first `days` distinct day buckets
in ascending order. -/
theorem byDayRows_labels (l : List UsageRecord) (days : Int) :
    (byDayRows l days).map (·.label) = (sortedDays l).take days.toNat := by
  unfold byDayRows
  rw [List.map_take, List.map_map]
  have h := dayAggRow_label_map l (sortedDays l)
  rw [show ((fun x => x.label) ∘ dayAggRow l) = (fun d => (dayAggRow l d).label) from rfl, h]

theorem sortedDays_sorted (l : List UsageRecord) :
    List.Sorted (· ≤ ·) (sortedDays l) :=
  List.sorted_insertionSort _ _

theorem sortedDays_nodup (l : List UsageRecord) : (sortedDays l).Nodup :=
  ((List.perm_insertionSort _ _).nodup_iff).2 (List.nodup_dedup _)

theorem sortedDays_strict (l : List UsageRecord) :
    List.Sorted (· < ·) (sortedDays l) :=
  (sortedDays_sorted l).lt_of_le (sortedDays_nodup l)

theorem sortedDays_mem (l : List UsageRecord) (d : Int) :
    d ∈ sortedDays l ↔ ∃ r ∈ l, dayIdx r.occurredAt = d := by
  simp [sortedDays, List.mem_dedup]

/-- C2 as stated is false: for the default 14-day window over an empty event
store, `byDay` has zero entries, not 14 — there is no gap-filling. -/
theorem c2_counterexample :
    (getOverview [] [] 0 0 wQuery).days = 14 ∧
    (getOverview [] [] 0 0 wQuery).overview.byDay = [] :=
  ⟨by decide, by decide⟩

/-- C2 amended: the labels of `byDay` are exactly the FIRST `days` distinct
`'Asia/Shanghai'`-calendar days that have at least one matching event, in
strictly increasing order, each entry carrying that day's summed requests
and tokens; days with no events are absent (no zero-filled entries), so an
empty store yields an empty series, and when the window spans more event
days than `days` the later days are dropped: an event day missing from the
series forces the series to be full with every shown day earlier. -/
theorem c2_day_series (db : List UsageRecord) (prices : List ModelPrice)
    (now hostOff : Int) (q : OverviewQuery) :
    (((getOverview db prices now hostOff q).overview.byDay).map (·.label) =
      (sortedDays (filteredRecords db now hostOff q)).take
        (getOverview db prices now hostOff q).days.toNat) ∧
    List.Sorted (· < ·)
      (((getOverview db prices now hostOff q).overview.byDay).map (·.label)) ∧
    ((getOverview db prices now hostOff q).overview.byDay).length ≤
      (getOverview db prices now hostOff q).days.toNat ∧
    (∀ p ∈ (getOverview db prices now hostOff q).overview.byDay,
      (∃ rec ∈ filteredRecords db now hostOff q, dayIdx rec.occurredAt = p.label) ∧
      p.requests = sumOf ((filteredRecords db now hostOff q).filter
        (fun r => dayIdx r.occurredAt == p.label)) (·.totalRequests) ∧
      p.tokens = sumOf ((filteredRecords db now hostOff q).filter
        (fun r => dayIdx r.occurredAt == p.label)) (·.totalTokens)) ∧
    (∀ rec ∈ filteredRecords db now hostOff q,
      (∃ p ∈ (getOverview db prices now hostOff q).overview.byDay,
        p.label = dayIdx rec.occurredAt) ∨
      (((getOverview db prices now hostOff q).overview.byDay).length =
          (getOverview db prices now hostOff q).days.toNat ∧
        ∀ p ∈ (getOverview db prices now hostOff q).overview.byDay,
          p.label < dayIdx rec.occurredAt)) := by
  set l := filteredRecords db now hostOff q with hl
  set days := (resolveWindow now hostOff q).days with hdays
  have hdaysEq : (getOverview db prices now hostOff q).days = days := getOverview_days ..
  have hlab : ((getOverview db prices now hostOff q).overview.byDay).map (·.label) =
      (sortedDays l).take days.toNat := by
    rw [getOverview_byDay, List.map_map]
    rw [show ((fun p => SeriesPoint.label p) ∘ toSeriesPoint
        (dailyCostMap prices (byDayModelRows l)) : DayAggRow → Int) =
      (fun row => row.label) from rfl]
    exact byDayRows_labels l days
  refine ⟨?_, ?_, ?_, ?_, ?_⟩
  · rw [hdaysEq]
    exact hlab
  · rw [hlab]
    exact (sortedDays_strict l).sublist (List.take_sublist _ _)
  · rw [hdaysEq]
    have := congrArg List.length hlab
    rw [List.length_map] at this
    rw [this]
    exact List.length_take_le _ _
  · intro p hp
    rw [getOverview_byDay] at hp
    obtain ⟨row, hrow, hpe⟩ := List.mem_map.1 hp
    have hrow2 : row ∈ (sortedDays l).map (dayAggRow l) := List.mem_of_mem_take hrow
    obtain ⟨d, hd, hre⟩ := List.mem_map.1 hrow2
    subst hre
    subst hpe
    exact ⟨(sortedDays_mem l d).1 hd, rfl, rfl⟩
  · intro rec hrec
    have hdmem : dayIdx rec.occurredAt ∈ sortedDays l :=
      (sortedDays_mem l _).2 ⟨rec, hrec, rfl⟩
    by_cases hin : dayIdx rec.occurredAt ∈ (sortedDays l).take days.toNat
    · left
      have hmem2 : dayIdx rec.occurredAt ∈
          ((getOverview db prices now hostOff q).overview.byDay).map (·.label) := by
        rw [hlab]; exact hin
      obtain ⟨p, hp, hpl⟩ := List.mem_map.1 hmem2
      exact ⟨p, hp, hpl⟩
    · right
      have hsplit := List.take_append_drop days.toNat (sortedDays l)
      have hdrop : dayIdx rec.occurredAt ∈ (sortedDays l).drop days.toNat := by
        have h2 := hdmem
        rw [← hsplit] at h2
        rcases List.mem_append.1 h2 with h3 | h3
        · exact absurd h3 hin
        · exact h3
      have hnle : days.toNat ≤ (sortedDays l).length := by
        by_contra hcon
        push_neg at hcon
        rw [List.drop_eq_nil_of_le (le_of_lt hcon)] at hdrop
        exact absurd hdrop (List.not_mem_nil _)
      constructor
      · have h1 := congrArg List.length hlab
        rw [List.length_map, List.length_take] at h1
        rw [hdaysEq, h1]
        omega
      · intro p hp
        have hpl : p.label ∈ (sortedDays l).take days.toNat := by
          rw [← hlab]
          exact List.mem_map_of_mem _ hp
        have hpair := sortedDays_strict l
        rw [← hsplit] at hpair
        exact (List.pairwise_append.1 hpair).2.2 _ hpl _ hdrop

/-- Witness for C2 at the one-event store: the single `byDay` entry is day
bucket 0 with one request, and the label list is the (untruncated) take of
the distinct event days. -/
theorem c2_day_series_witness :
    (∃ rec ∈ filteredRecords [wRec] 1000000 0 wQuery,
      dayIdx rec.occurredAt = (0 : Int)) ∧
    (((getOverview [wRec] [] 1000000 0 wQuery).overview.byDay).map (·.label) =
      (sortedDays (filteredRecords [wRec] 1000000 0 wQuery)).take
        (getOverview [wRec] [] 1000000 0 wQuery).days.toNat) := by
  have h := c2_day_series [wRec] [] 1000000 0 wQuery
  have hmem : ({ label := 0, requests := 1, tokens := 0, cost := roundTo 2 0 } : SeriesPoint) ∈
      (getOverview [wRec] [] 1000000 0 wQuery).overview.byDay := by decide
  exact ⟨(h.2.2.2.1 _ hmem).1, h.1⟩

/-! ### C8 (corrected) -/

instance : IsTotal RouteAggRow routeGe :=
  ⟨fun a b => le_total b.requests a.requests⟩

instance : IsTrans RouteAggRow routeGe :=
  ⟨fun _ _ _ hab hbc => le_trans hbc hab⟩

theorem routeAggRow_route_map (l : List UsageRecord) (rs : List String) :
    ((rs.map (routeAggRow l)).map (·.route)) = rs := by
  induction rs with
  | nil => rfl
  | cons r rs ih => simp only [List.map_cons, ih]; rfl

theorem byRouteRows_length_le (l : List UsageRecord) : (byRouteRows l).length ≤ 10 :=
  List.length_take_le _ _

theorem byRouteRows_sorted (l : List UsageRecord) :
    List.Pairwise routeGe (byRouteRows l) :=
  (List.sorted_insertionSort routeGe _).sublist (List.take_sublist _ _)

theorem byRouteRows_routes_nodup (l : List UsageRecord) :
    ((byRouteRows l).map (·.route)).Nodup := by
  unfold byRouteRows
  have hperm : List.Perm
      ((((l.map (·.route)).dedup).map (routeAggRow l)).insertionSort routeGe)
      (((l.map (·.route)).dedup).map (routeAggRow l)) := List.perm_insertionSort _ _
  have hnd : (((((l.map (·.route)).dedup).map (routeAggRow l)).insertionSort routeGe).map
      (·.route)).Nodup := by
    refine ((hperm.map (·.route)).nodup_iff).2 ?_
    rw [routeAggRow_route_map]
    exact List.nodup_dedup _
  exact ((List.take_sublist _ _).map _).nodup hnd

theorem byRouteRows_mem (l : List UsageRecord) :
    ∀ row ∈ byRouteRows l, ∃ rt, row = routeAggRow l rt := by
  intro row hrow
  unfold byRouteRows at hrow
  have h1 := List.mem_of_mem_take hrow
  rw [List.mem_insertionSort] at h1
  obtain ⟨rt, _, hre⟩ := List.mem_map.1 h1
  exact ⟨rt, hre.symm⟩

/-- A store whose single event is small enough that the 4-decimal rounding
of the route cost collapses it to 0. -/
def wRecSmall : UsageRecord :=
  { occurredAt := 1000, route := "r", model := "m", totalRequests := 1,
    totalTokens := 10, inputTokens := 10, outputTokens := 0, reasoningTokens := 0,
    cachedTokens := 0, successCount := 1, failureCount := 0 }

/-- C8 as stated is false on exact equality: with 10 input tokens and no
configured prices, the claim's formula gives `10/1e6 * 3 = 3e-5`, but the
reported cost is `Number((3e-5).toFixed(4)) = 0`. -/
theorem c8_counterexample :
    ((getOverview [wRecSmall] [] 1000000 0 wQuery).topRoutes.map (·.cost)) = [0] ∧
    ((10:ℚ) - 0) / 1000000 * avgInputPrice [] + (0:ℚ) / 1000000 * avgCachedPrice []
      + (0:ℚ) / 1000000 * avgOutputPrice [] ≠ 0 :=
  ⟨by decide, by decide⟩

/-- C8 amended: `topRoutes` has at most 10 entries, grouped by route (no
route repeats, each entry carrying that route's summed fields) and ordered
by summed total requests descending, and every entry's cost is the claim's
average-price formula rounded to 4 decimal places (`toFixed(4)`), the
averages falling back to the fixed rates 3 / 0.3 / 15 when no price rows
exist. -/
theorem c8_top_routes (db : List UsageRecord) (prices : List ModelPrice)
    (now hostOff : Int) (q : OverviewQuery) :
    ((getOverview db prices now hostOff q).topRoutes).length ≤ 10 ∧
    List.Pairwise (fun a b => b.requests ≤ a.requests)
      ((getOverview db prices now hostOff q).topRoutes) ∧
    (((getOverview db prices now hostOff q).topRoutes).map (·.route)).Nodup ∧
    (avgInputPrice [] = 3 ∧ avgCachedPrice [] = 3/10 ∧ avgOutputPrice [] = 15) ∧
    ∀ e ∈ (getOverview db prices now hostOff q).topRoutes,
      e.requests = sumOf ((filteredRecords db now hostOff q).filter
        (fun r => r.route == e.route)) (·.totalRequests) ∧
      e.inputTokens = sumOf ((filteredRecords db now hostOff q).filter
        (fun r => r.route == e.route)) (·.inputTokens) ∧
      e.outputTokens = sumOf ((filteredRecords db now hostOff q).filter
        (fun r => r.route == e.route)) (·.outputTokens) ∧
      e.cachedTokens = sumOf ((filteredRecords db now hostOff q).filter
        (fun r => r.route == e.route)) (·.cachedTokens) ∧
      e.cost = roundTo 4 ((e.inputTokens - e.cachedTokens) / 1000000 * avgInputPrice prices
        + e.cachedTokens / 1000000 * avgCachedPrice prices
        + e.outputTokens / 1000000 * avgOutputPrice prices) := by
  set l := filteredRecords db now hostOff q with hl
  rw [getOverview_topRoutes]
  refine ⟨?_, ?_, ?_, ⟨rfl, rfl, rfl⟩, ?_⟩
  · rw [List.length_map]
    exact byRouteRows_length_le l
  · exact List.pairwise_map.2 (byRouteRows_sorted l)
  · rw [List.map_map]
    rw [show ((fun e => RouteUsage.route e) ∘ toRouteUsage prices :
      RouteAggRow → String) = (fun row => row.route) from rfl]
    have h := byRouteRows_routes_nodup l
    rwa [show ((byRouteRows l).map (·.route)) =
      (byRouteRows l).map (fun row => row.route) from rfl] at h
  · intro e he
    obtain ⟨row, hrow, hre⟩ := List.mem_map.1 he
    obtain ⟨rt, hrt⟩ := byRouteRows_mem l row hrow
    subst hrt
    subst hre
    exact ⟨rfl, rfl, rfl, rfl, rfl⟩

/-- The `topRoutes` entry produced by the zero-token witness store. -/
def wRoute : RouteUsage :=
  { route := "r", requests := 1, tokens := 0, inputTokens := 0, outputTokens := 0,
    cachedTokens := 0, cost := 0 }

/-- Witness for C8 at the one-event store with zero tokens. -/
theorem c8_top_routes_witness :
    ((getOverview [wRec] [] 1000000 0 wQuery).topRoutes).length ≤ 10 ∧
    wRoute.cost = roundTo 4 ((wRoute.inputTokens - wRoute.cachedTokens) / 1000000
      * avgInputPrice [] + wRoute.cachedTokens / 1000000 * avgCachedPrice []
      + wRoute.outputTokens / 1000000 * avgOutputPrice []) := by
  have h := c8_top_routes [wRec] [] 1000000 0 wQuery
  exact ⟨h.1, (h.2.2.2.2 wRoute (by decide)).2.2.2.2⟩

/-! ### C5 -/

/-- The models with at least one event on `'Asia/Shanghai'` day `d` of the
filtered window (claim-side description). -/
def modelsActiveOn (l : List UsageRecord) (d : Int) : List String :=
  ((l.filter (fun r => dayIdx r.occurredAt == d)).map (·.model)).dedup

/-- The summed input/cached/output tokens of model `m` on day `d`
(claim-side description). -/
def dayModelTokens (l : List UsageRecord) (d : Int) (m : String) : TokenCounts :=
  { inputTokens := sumOf (l.filter (fun r => dayIdx r.occurredAt == d && r.model == m))
      (·.inputTokens)
    cachedTokens := sumOf (l.filter (fun r => dayIdx r.occurredAt == d && r.model == m))
      (·.cachedTokens)
    outputTokens := sumOf (l.filter (fun r => dayIdx r.occurredAt == d && r.model == m))
      (·.outputTokens) }

/-- The claim-side daily cost: cost is computed per model from that model's
daily token sums and only then aggregated over the day's active models. -/
def specDailyCost (prices : List ModelPrice) (l : List UsageRecord) (d : Int) : ℚ :=
  ((modelsActiveOn l d).map (fun m => estimateCost (dayModelTokens l d m) m prices)).sum

theorem mapGet_nil (k : Int) : mapGet [] k = none := rfl

theorem mapGet_cons (a : Int) (b : ℚ) (rest : List (Int × ℚ)) (k : Int) :
    mapGet ((a, b) :: rest) k = if a = k then some b else mapGet rest k := by
  by_cases h : a = k
  · simp [mapGet, List.find?, h]
  · simp only [mapGet, List.find?, beq_eq_false_iff_ne.2 h, if_neg h]

theorem mapSet_cons_pos (a : Int) (b : ℚ) (rest : List (Int × ℚ)) (k : Int) (v : ℚ)
    (h : a = k) : mapSet ((a, b) :: rest) k v = (k, v) :: rest := by
  simp [mapSet, h]

theorem mapSet_cons_neg (a : Int) (b : ℚ) (rest : List (Int × ℚ)) (k : Int) (v : ℚ)
    (h : a ≠ k) : mapSet ((a, b) :: rest) k v = (a, b) :: mapSet rest k v := by
  simp [mapSet, h]

theorem mapGet_mapSet (m : List (Int × ℚ)) (k k' : Int) (v : ℚ) :
    mapGet (mapSet m k v) k' = if k' = k then some v else mapGet m k' := by
  induction m with
  | nil =>
    show mapGet ((k, v) :: []) k' = _
    rw [mapGet_cons]
    by_cases h : k' = k
    · rw [if_pos h.symm, if_pos h]
    · rw [if_neg (fun h2 => h h2.symm), if_neg h, mapGet_nil]
  | cons p rest ih =>
    obtain ⟨a, b⟩ := p
    by_cases hak : a = k
    · rw [mapSet_cons_pos a b rest k v hak, mapGet_cons, mapGet_cons]
      by_cases h : k' = k
      · rw [if_pos h.symm, if_pos h]
      · rw [if_neg (fun h2 : k = k' => h h2.symm), if_neg h,
          if_neg (fun h2 : a = k' => h ((hak.symm.trans h2).symm))]
    · rw [mapSet_cons_neg a b rest k v hak, mapGet_cons, ih, mapGet_cons]
      by_cases ha1 : a = k'
      · have hk : ¬ k' = k := fun h2 => hak (ha1.trans h2)
        rw [if_pos ha1, if_neg hk, if_pos ha1]
      · rw [if_neg ha1]
        by_cases h : k' = k
        · rw [if_pos h, if_pos h]
        · rw [if_neg h, if_neg h, if_neg ha1]

theorem dailyCostFold_get (prices : List ModelPrice) (rows : List DayModelAggRow)
    (m : List (Int × ℚ)) (k : Int) :
    (mapGet (rows.foldl (fun m row => mapSet m row.label
        ((mapGet m row.label).getD 0 + dayModelCost prices row)) m) k).getD 0 =
    (mapGet m k).getD 0 +
      ((rows.filter (fun row => row.label == k)).map (dayModelCost prices)).sum := by
  induction rows generalizing m with
  | nil => simp
  | cons row rest ih =>
    rw [List.foldl_cons, ih]
    by_cases h : row.label = k
    · rw [List.filter_cons_of_pos (by simp [beq_iff_eq, h])]
      rw [mapGet_mapSet]
      rw [if_pos h.symm]
      simp only [Option.getD_some, List.map_cons, List.sum_cons]
      rw [h]
      ring
    · rw [List.filter_cons_of_neg (by simp [beq_iff_eq, h])]
      rw [mapGet_mapSet, if_neg (fun h2 => h h2.symm)]

theorem dailyCostMap_get (prices : List ModelPrice) (rows : List DayModelAggRow) (k : Int) :
    (mapGet (dailyCostMap prices rows) k).getD 0 =
      ((rows.filter (fun row => row.label == k)).map (dayModelCost prices)).sum := by
  unfold dailyCostMap
  rw [dailyCostFold_get]
  simp [mapGet]

theorem byDayModelRows_filter (l : List UsageRecord) (d : Int) :
    (byDayModelRows l).filter (fun row => row.label == d) =
      ((sortedDayModels l).filter (fun k => k.1 == d)).map (dayModelAggRow l) := by
  unfold byDayModelRows
  rw [List.filter_map]
  rfl

theorem dayModelCost_agg (prices : List ModelPrice) (l : List UsageRecord)
    (k : Int × String) :
    dayModelCost prices (dayModelAggRow l k) =
      estimateCost (dayModelTokens l k.1 k.2) k.2 prices := rfl

theorem sortedDayModels_nodup (l : List UsageRecord) : (sortedDayModels l).Nodup :=
  ((List.perm_insertionSort _ _).nodup_iff).2 (List.nodup_dedup _)

theorem sortedDayModels_mem (l : List UsageRecord) (p : Int × String) :
    p ∈ sortedDayModels l ↔ ∃ r ∈ l, dayIdx r.occurredAt = p.1 ∧ r.model = p.2 := by
  simp [sortedDayModels, List.mem_dedup, Prod.ext_iff]

theorem modelsActiveOn_mem (l : List UsageRecord) (d : Int) (m : String) :
    m ∈ modelsActiveOn l d ↔ ∃ r ∈ l, dayIdx r.occurredAt = d ∧ r.model = m := by
  simp only [modelsActiveOn, List.mem_dedup, List.mem_map, List.mem_filter, beq_iff_eq]
  constructor
  · rintro ⟨r, ⟨hr, hd⟩, hm⟩
    exact ⟨r, hr, hd, hm⟩
  · rintro ⟨r, hr, hd, hm⟩
    exact ⟨r, ⟨hr, hd⟩, hm⟩

/-- The (day, model) group keys restricted to one day are, up to order, the
day's active models tagged with that day. -/
theorem dayModelKeys_filter_perm (l : List UsageRecord) (d : Int) :
    List.Perm ((sortedDayModels l).filter (fun k => k.1 == d))
      ((modelsActiveOn l d).map (fun m => (d, m))) := by
  have hinj : Function.Injective (fun m : String => ((d, m) : Int × String)) :=
    fun a b h => congrArg Prod.snd h
  have hnd1 : ((sortedDayModels l).filter (fun k => k.1 == d)).Nodup :=
    (sortedDayModels_nodup l).filter _
  have hnd2 : ((modelsActiveOn l d).map (fun m => (d, m))).Nodup :=
    (List.nodup_dedup _).map hinj
  refine (List.perm_ext_iff_of_nodup hnd1 hnd2).2 ?_
  intro p
  rw [List.mem_filter, sortedDayModels_mem]
  constructor
  · rintro ⟨⟨r, hr, hd1, hm⟩, hpd⟩
    have hpd2 : p.1 = d := by simpa [beq_iff_eq] using hpd
    refine List.mem_map.2 ⟨p.2, ?_, ?_⟩
    · refine (modelsActiveOn_mem l d p.2).2 ⟨r, hr, ?_, hm⟩
      rw [hd1]; exact hpd2
    · cases p
      simp only at hpd2 ⊢
      rw [hpd2]
  · intro hp
    obtain ⟨m, hm, hpe⟩ := List.mem_map.1 hp
    obtain ⟨r, hr, hd1, hm2⟩ := (modelsActiveOn_mem l d m).1 hm
    subst hpe
    exact ⟨⟨r, hr, hd1, hm2⟩, by simp⟩

/-- The value stored in `dailyCostMap` for day `d` is exactly the claim-side
per-model-then-sum daily cost. -/
theorem dailyCost_eq_spec (prices : List ModelPrice) (l : List UsageRecord) (d : Int) :
    (mapGet (dailyCostMap prices (byDayModelRows l)) d).getD 0 =
      specDailyCost prices l d := by
  rw [dailyCostMap_get, byDayModelRows_filter, List.map_map]
  rw [show ((dayModelCost prices) ∘ (dayModelAggRow l) : Int × String → ℚ) =
    (fun k => estimateCost (dayModelTokens l k.1 k.2) k.2 prices) from
    funext (fun k => dayModelCost_agg prices l k)]
  rw [((dayModelKeys_filter_perm l d).map
    (fun k => estimateCost (dayModelTokens l k.1 k.2) k.2 prices)).sum_eq]
  rw [List.map_map]
  rfl

/-- C5: for every day present in `byDay`, the reported cost is the
2-decimal rounding of the sum, over the models active on that day, of the
per-model cost computed from that model's summed input/cached/output tokens
for that day — cost is computed at model granularity before aggregating to
the daily total. -/
theorem c5_daily_cost (db : List UsageRecord) (prices : List ModelPrice)
    (now hostOff : Int) (q : OverviewQuery) :
    ∀ p ∈ (getOverview db prices now hostOff q).overview.byDay,
      p.cost = roundTo 2 (specDailyCost prices (filteredRecords db now hostOff q) p.label) := by
  intro p hp
  rw [getOverview_byDay] at hp
  obtain ⟨row, hrow, hpe⟩ := List.mem_map.1 hp
  subst hpe
  show roundTo 2 ((mapGet (dailyCostMap prices
    (byDayModelRows (filteredRecords db now hostOff q))) row.label).getD 0) =
    roundTo 2 (specDailyCost prices (filteredRecords db now hostOff q) row.label)
  rw [dailyCost_eq_spec]

/-- Witness for C5 at the one-event store: the single day-0 series point. -/
theorem c5_daily_cost_witness :
    ({ label := 0, requests := 1, tokens := 0, cost := roundTo 2 0 } : SeriesPoint).cost =
      roundTo 2 (specDailyCost [] (filteredRecords [wRec] 1000000 0 wQuery) 0) := by
  have h := c5_daily_cost [wRec] [] 1000000 0 wQuery
  exact h _ (by decide)

end CPM
